import Mathlib

/-!
Formal model of the axanet-python client manager (`src/app.py`).

The program is a single-operator CRUD tool: customer records are JSON files in
`data/clients/`, a persisted index `data/index.json` maps normalized customer
names to filenames, and successful consultations are appended to
`logs/queries.log`.

Shallow embedding conventions:
* Python strings are `List Char` (one entry per Unicode code point), called `Str`.
* The filesystem is an explicit `FS` value: the `data/clients/` directory is an
  association list from filename to parsed record content, the persisted index
  file is an `Option Index`, and the query log is a list of lines.
* The interactive `input()` calls of `src/app.py` become explicit parameters;
  `uuid.uuid4()` and `now_iso()` results are likewise passed in as parameters
  (the program treats them as fresh, uninterpreted strings).
* Operations return their error outcome (`Except AppError _`) together with the
  updated in-memory index and filesystem; a Python early `return` after printing
  an error message is the corresponding `Except.error`.
-/

/-- Python strings, one `Char` per code point. -/
abbrev Str := List Char

/-- Model of Python `str.isspace` / the `\s` regex class on individual
characters: ASCII whitespace, the C1 and Unicode space code points.
(`str.strip()` with no argument removes exactly these at the ends.) -/
def isSpaceCh (c : Char) : Bool :=
  decide (c.toNat = 32 ∨ (9 ≤ c.toNat ∧ c.toNat ≤ 13) ∨ (28 ≤ c.toNat ∧ c.toNat ≤ 31) ∨
    c.toNat = 133 ∨ c.toNat = 160 ∨ c.toNat = 5760 ∨ (8192 ≤ c.toNat ∧ c.toNat ≤ 8202) ∨
    c.toNat = 8232 ∨ c.toNat = 8233 ∨ c.toNat = 8239 ∨ c.toNat = 8287 ∨ c.toNat = 12288)

/-- Model of Python `str.strip()`: drop whitespace from both ends. -/
def pyStrip (s : Str) : Str :=
  ((s.dropWhile isSpaceCh).reverse.dropWhile isSpaceCh).reverse

/-- Model of Python `str.lower()` on one character, covering the code points the
program distinguishes: ASCII uppercase and Latin-1 uppercase (which includes the
accented vowels `ÁÀÄÉÈËÍÌÏÓÒÖÚÙÜ` handled by `normalize_name`) map down by 32
(`×`, U+00D7, has no case); every other code point is left unchanged, which is
observationally equivalent here because any remaining cased code point is
removed by the `[^a-z0-9 ]` filter and can never produce `"si"`. -/
def pyLowerChar (c : Char) : Char :=
  if 65 ≤ c.toNat ∧ c.toNat ≤ 90 then Char.ofNat (c.toNat + 32)
  else if 192 ≤ c.toNat ∧ c.toNat ≤ 222 ∧ c.toNat ≠ 215 then Char.ofNat (c.toNat + 32)
  else c

/-- The five accent substitutions of `normalize_name` (src/app.py:23-27):
`re.sub` on the single-character classes `[áàä] [éèë] [íìï] [óòö] [úùü]`,
i.e. a character-wise map. Code points: á=225 à=224 ä=228, é=233 è=232 ë=235,
í=237 ì=236 ï=239, ó=243 ò=242 ö=246, ú=250 ù=249 ü=252. -/
def mapAccent (c : Char) : Char :=
  if c.toNat = 225 ∨ c.toNat = 224 ∨ c.toNat = 228 then 'a'
  else if c.toNat = 233 ∨ c.toNat = 232 ∨ c.toNat = 235 then 'e'
  else if c.toNat = 237 ∨ c.toNat = 236 ∨ c.toNat = 239 then 'i'
  else if c.toNat = 243 ∨ c.toNat = 242 ∨ c.toNat = 246 then 'o'
  else if c.toNat = 250 ∨ c.toNat = 249 ∨ c.toNat = 252 then 'u'
  else c

/-- The character class kept by `re.sub(r"[^a-z0-9 ]", "", name)`
(src/app.py:28): lowercase ASCII letters, digits, and the ASCII space. -/
def isAllowed (c : Char) : Bool :=
  decide ((97 ≤ c.toNat ∧ c.toNat ≤ 122) ∨ (48 ≤ c.toNat ∧ c.toNat ≤ 57) ∨ c.toNat = 32)

/-- Worker for `re.sub(r"\s+", " ", name)` (src/app.py:29): each maximal run of
whitespace is replaced by a single ASCII space, emitted at the start of the run.
The flag records whether we are currently inside a whitespace run. -/
def collapseAux : Str → Bool → Str
  | [], _ => []
  | c :: cs, inRun =>
    if isSpaceCh c then
      if inRun then collapseAux cs true else ' ' :: collapseAux cs true
    else c :: collapseAux cs false

/-- Model of `re.sub(r"\s+", " ", name)` (src/app.py:29). -/
def collapseWs (s : Str) : Str := collapseAux s false

/-- `normalize_name` (src/app.py:21-30): strip surrounding whitespace,
lowercase, map the listed accented vowels to plain vowels, delete every
character outside `[a-z0-9 ]`, collapse whitespace runs to a single space. -/
def normalize_name (name : Str) : Str :=
  collapseWs ((((pyStrip name).map pyLowerChar).map mapAccent).filter isAllowed)

/-- `slugify` (src/app.py:32-33): `normalize_name` with spaces replaced by hyphens. -/
def slugify (name : Str) : Str :=
  (normalize_name name).map (fun c => if c = ' ' then '-' else c)

/-- A service request entry (`solicitudes` element, src/app.py:94-100 and 173-179). -/
structure Solicitud where
  request_id : Str
  servicio : Str
  descripcion : Str
  fecha_solicitud : Str
  canal : Str
  deriving DecidableEq

/-- A customer record as stored in a `data/clients/*.json` file (src/app.py:87-102). -/
structure Cliente where
  customer_id : Str
  nombre : Str
  tipo_cliente : Str
  contacto : Str
  fecha_alta : Str
  solicitudes : List Solicitud
  deriving DecidableEq

/-- Lookup in an association list, modelling `dict.get` / dictionary keys as
well as filename lookup in a directory (keys are unique in both). -/
def alGet {α : Type} : List (Str × α) → Str → Option α
  | [], _ => none
  | (k, v) :: t, q => if k = q then some v else alGet t q

/-- Remove every binding of a key, modelling `del d[k]` / `os.remove`. -/
def alErase {α : Type} : List (Str × α) → Str → List (Str × α)
  | [], _ => []
  | (k, v) :: t, q => if k = q then alErase t q else (k, v) :: alErase t q

/-- Bind a key, modelling `d[k] = v` / writing a file (observations are only
ever made through `alGet`, so the position of the binding is irrelevant). -/
def alSet {α : Type} (l : List (Str × α)) (k : Str) (v : α) : List (Str × α) :=
  alErase l k ++ [(k, v)]

/-- The in-memory index: normalized name key to record filename (`index.json`). -/
abbrev Index := List (Str × Str)

/-- The observable filesystem state: the `data/clients/` directory (filename to
parsed record), the persisted `data/index.json` (absent or a mapping), and the
lines of `logs/queries.log`. -/
structure FS where
  clients : List (Str × Cliente)
  indexFile : Option Index
  log : List Str
  deriving DecidableEq

/-- Error outcomes reported by the operations (each corresponds to an early
`return` after a message in src/app.py). `FileNotFoundError` is the exception
`os.remove` raises on a missing path. -/
inductive AppError where
  | EmptyInput
  | NotFound
  | Conflict
  | Cancelled
  | InvalidSelector
  | FileNotFoundError
  deriving DecidableEq

/-- `require_non_empty` (src/app.py:46-51): strip the answer; an empty result is
rejected (`none`), otherwise the stripped string is returned. -/
def require_non_empty (s : Str) : Option Str :=
  if pyStrip s = [] then none else some (pyStrip s)

/-- `load_index` (src/app.py:35-39): an absent index file loads as the empty mapping. -/
def load_index (fs : FS) : Index :=
  match fs.indexFile with
  | some index => index
  | none => []

/-- `save_index` (src/app.py:41-44): rewrite the persisted index file in full. -/
def save_index (index : Index) (fs : FS) : FS :=
  { fs with indexFile := some index }

/-- `find_client_file` (src/app.py:113-121): normalize the name, look the key up
in the index (a falsy — missing or empty — filename is "not found"), then
confirm the record file actually exists. -/
def find_client_file (index : Index) (fs : FS) (name : Str) : Option Str :=
  match alGet index (normalize_name name) with
  | none => none
  | some filename =>
    if filename = [] then none
    else if (alGet fs.clients filename).isSome then some filename
    else none

/-- `os.remove(path)` (src/app.py:206): deletes the file if present, raises
`FileNotFoundError` if the path does not exist. -/
def os_remove (clients : List (Str × Cliente)) (filename : Str) :
    Except AppError (List (Str × Cliente)) :=
  if (alGet clients filename).isSome then Except.ok (alErase clients filename)
  else Except.error AppError.FileNotFoundError

/-- `create_client` (src/app.py:64-111). Interactive inputs become the
parameters `nameI tipoI contactoI servicioI descripcionI`; the generated UUIDs
and the two `now_iso()` readings are `customer_id`, `request_id`, `fechaAlta`,
`fechaSolicitud`. Returns (outcome, in-memory index, filesystem). -/
def create_client (index : Index) (fs : FS)
    (nameI tipoI contactoI servicioI descripcionI : Str)
    (customer_id request_id fechaAlta fechaSolicitud : Str) :
    Except AppError Unit × Index × FS :=
  match require_non_empty nameI with
  | none => (Except.error AppError.EmptyInput, index, fs)
  | some name =>
    if (alGet index (normalize_name name)).isSome then
      (Except.error AppError.Conflict, index, fs)
    else
      let tipo := if pyStrip tipoI = [] then ['P','e','r','s','o','n','a'] else pyStrip tipoI
      let contacto := if pyStrip contactoI = [] then ['N','/','A'] else pyStrip contactoI
      match require_non_empty servicioI with
      | none => (Except.error AppError.EmptyInput, index, fs)
      | some servicio =>
        match require_non_empty descripcionI with
        | none => (Except.error AppError.EmptyInput, index, fs)
        | some descripcion =>
          let filename := customer_id ++ ('_' :: slugify name) ++ ['.','j','s','o','n']
          let cliente : Cliente :=
            { customer_id := customer_id
              nombre := name
              tipo_cliente := tipo
              contacto := contacto
              fecha_alta := fechaAlta
              solicitudes := [{ request_id := request_id
                                servicio := servicio
                                descripcion := descripcion
                                fecha_solicitud := fechaSolicitud
                                canal := ['c','a','l','l',' ','c','e','n','t','e','r'] }] }
          let index1 := alSet index (normalize_name name) filename
          let fs1 := { fs with clients := alSet fs.clients filename cliente }
          (Except.ok (), index1, save_index index1 fs1)

/-- `consult_client` (src/app.py:123-140): resolve, read and return the record,
and append one `{ts} | CONSULTA | {name}` line to the query log (the trailing
`\n` is the line separator of the log model). -/
def consult_client (index : Index) (fs : FS) (nameI ts : Str) :
    Except AppError Cliente × FS :=
  match require_non_empty nameI with
  | none => (Except.error AppError.EmptyInput, fs)
  | some name =>
    match find_client_file index fs name with
    | none => (Except.error AppError.NotFound, fs)
    | some path =>
      match alGet fs.clients path with
      | none => (Except.error AppError.NotFound, fs)
      | some cliente =>
        (Except.ok cliente,
          { fs with log := fs.log ++ [ts ++ [' ','|',' ','C','O','N','S','U','L','T','A',' ','|',' '] ++ name] })

/-- `modify_client` (src/app.py:142-188). `optI` is the sub-operation selector
input; option `"1"` replaces the contact, option `"2"` appends a service
request; anything else is rejected with no write. The updated record is written
back to the same path. -/
def modify_client (index : Index) (fs : FS)
    (nameI optI nuevoI servicioI descripcionI : Str)
    (request_id fechaSolicitud : Str) :
    Except AppError Unit × FS :=
  match require_non_empty nameI with
  | none => (Except.error AppError.EmptyInput, fs)
  | some name =>
    match find_client_file index fs name with
    | none => (Except.error AppError.NotFound, fs)
    | some path =>
      match alGet fs.clients path with
      | none => (Except.error AppError.NotFound, fs)
      | some cliente =>
        if pyStrip optI = ['1'] then
          match require_non_empty nuevoI with
          | none => (Except.error AppError.EmptyInput, fs)
          | some nuevo =>
            (Except.ok (),
              { fs with clients := alSet fs.clients path { cliente with contacto := nuevo } })
        else if pyStrip optI = ['2'] then
          match require_non_empty servicioI with
          | none => (Except.error AppError.EmptyInput, fs)
          | some servicio =>
            match require_non_empty descripcionI with
            | none => (Except.error AppError.EmptyInput, fs)
            | some descripcion =>
              (Except.ok (),
                { fs with clients := (alSet fs.clients path
                    { cliente with solicitudes := cliente.solicitudes ++
                        [{ request_id := request_id
                           servicio := servicio
                           descripcion := descripcion
                           fecha_solicitud := fechaSolicitud
                           canal := ['c','a','l','l',' ','c','e','n','t','e','r'] }] }) })
        else (Except.error AppError.InvalidSelector, fs)

/-- `delete_client` (src/app.py:190-211): resolve the name, ask for
confirmation (`strip().lower()` compared to `"si"`), then `os.remove` the file
and, if the key is in the index, delete it and persist the index. -/
def delete_client (index : Index) (fs : FS) (nameI confirmI : Str) :
    Except AppError Unit × Index × FS :=
  match require_non_empty nameI with
  | none => (Except.error AppError.EmptyInput, index, fs)
  | some name =>
    match find_client_file index fs name with
    | none => (Except.error AppError.NotFound, index, fs)
    | some path =>
      if (pyStrip confirmI).map pyLowerChar ≠ ['s','i'] then
        (Except.error AppError.Cancelled, index, fs)
      else
        match os_remove fs.clients path with
        | Except.error e => (Except.error e, index, fs)
        | Except.ok clients1 =>
          if (alGet index (normalize_name name)).isSome then
            (Except.ok (), alErase index (normalize_name name),
              save_index (alErase index (normalize_name name)) { fs with clients := clients1 })
          else (Except.ok (), index, { fs with clients := clients1 })

/-- No two adjacent whitespace characters (the shape of `collapseWs` output). -/
def noSp2 (a b : Char) : Prop := ¬(isSpaceCh a = true ∧ isSpaceCh b = true)

/-- One interactive round of `modify_client` option `"2"`: the two answers and
the generated request id / timestamp of the appended service request. -/
structure AppendReq where
  servicioI : Str
  descripcionI : Str
  request_id : Str
  fecha : Str

/-- The `solicitudes` entry that `modify_client` option `"2"` builds from one
round of answers (src/app.py:173-179). -/
def mkSolicitud (e : AppendReq) : Solicitud :=
  { request_id := e.request_id
    servicio := pyStrip e.servicioI
    descripcion := pyStrip e.descripcionI
    fecha_solicitud := e.fecha
    canal := ['c','a','l','l',' ','c','e','n','t','e','r'] }

/-- Run `modify_client` with sub-operation `"2"` (append a service request) once
per element of the list, threading the filesystem. -/
def applyAppends (index : Index) (nameI : Str) (fs : FS) : List AppendReq → FS
  | [] => fs
  | e :: rest =>
    applyAppends index nameI
      (modify_client index fs nameI ['2'] [] e.servicioI e.descripcionI e.request_id e.fecha).2
      rest

/-- Every record reachable in the record store has a non-empty `solicitudes`. -/
def solicitudesNonEmpty (fs : FS) : Prop :=
  ∀ f c, alGet fs.clients f = some c → c.solicitudes ≠ []

/-- Sample storage filename for concrete instantiations. -/
def wFile : Str := "id1_ana.json".data

/-- Sample normalized key for concrete instantiations. -/
def wKey : Str := "ana".data

/-- Sample seeded service request for concrete instantiations. -/
def wSolicitud : Solicitud :=
  { request_id := "r1".data
    servicio := "TV".data
    descripcion := "alta".data
    fecha_solicitud := "2026-01-01 00:00:00".data
    canal := "call center".data }

/-- Sample customer record for concrete instantiations. -/
def wCliente : Cliente :=
  { customer_id := "id1".data
    nombre := "Ana".data
    tipo_cliente := "Persona".data
    contacto := "N/A".data
    fecha_alta := "2026-01-01 00:00:00".data
    solicitudes := [wSolicitud] }

/-- Sample index holding the one customer. -/
def wIndex : Index := [(wKey, wFile)]

/-- Sample filesystem holding the one customer record and a persisted index. -/
def wFS : FS :=
  { clients := [(wFile, wCliente)]
    indexFile := some wIndex
    log := [] }

/-- Sample filesystem with an empty record store. -/
def wEmptyFS : FS :=
  { clients := []
    indexFile := none
    log := [] }

/-- Characters kept by the `[^a-z0-9 ]` filter are already lowercase. -/
theorem isAllowed_pyLowerChar {c : Char} (h : isAllowed c = true) : pyLowerChar c = c := by
  simp only [isAllowed, decide_eq_true_eq] at h
  unfold pyLowerChar
  rw [if_neg (by omega), if_neg (by omega)]

/-- Characters kept by the `[^a-z0-9 ]` filter carry no accent to map. -/
theorem isAllowed_mapAccent {c : Char} (h : isAllowed c = true) : mapAccent c = c := by
  simp only [isAllowed, decide_eq_true_eq] at h
  unfold mapAccent
  rw [if_neg (by omega), if_neg (by omega), if_neg (by omega), if_neg (by omega),
    if_neg (by omega)]

/-- The only whitespace character in the `[a-z0-9 ]` class is the ASCII space. -/
theorem isAllowed_isSpaceCh {c : Char} (ha : isAllowed c = true) (hs : isSpaceCh c = true) :
    c = ' ' := by
  simp only [isAllowed, decide_eq_true_eq] at ha
  simp only [isSpaceCh, decide_eq_true_eq] at hs
  have h32 : c.toNat = 32 := by omega
  exact Char.eq_of_val_eq (UInt32.toNat.inj h32)

/-- `dropWhile` is idempotent. -/
theorem dropWhile_dropWhile (p : Char → Bool) (l : Str) :
    (l.dropWhile p).dropWhile p = l.dropWhile p := by
  induction l with
  | nil => rfl
  | cons a t ih =>
    by_cases hpa : p a
    · rw [List.dropWhile_cons, if_pos hpa, ih]
    · rw [List.dropWhile_cons, if_neg hpa, List.dropWhile_cons, if_neg hpa]

/-- The head surviving a `dropWhile` fails the predicate. -/
theorem head_dropWhile {p : Char → Bool} :
    ∀ {l : Str} {d : Char}, (l.dropWhile p).head? = some d → p d = false := by
  intro l
  induction l with
  | nil => intro d h; simp [List.dropWhile] at h
  | cons a t ih =>
    intro d h
    rw [List.dropWhile_cons] at h
    by_cases hpa : p a
    · rw [if_pos hpa] at h
      exact ih h
    · rw [if_neg hpa] at h
      simp only [List.head?_cons, Option.some.injEq] at h
      subst h
      exact Bool.eq_false_iff.mpr hpa

/-- `str.strip()` is idempotent. -/
theorem pyStrip_idem (s : Str) : pyStrip (pyStrip s) = pyStrip s := by
  unfold pyStrip
  have h1 : ((s.dropWhile isSpaceCh).reverse.dropWhile isSpaceCh).reverse.dropWhile isSpaceCh =
      ((s.dropWhile isSpaceCh).reverse.dropWhile isSpaceCh).reverse := by
    cases hBr : ((s.dropWhile isSpaceCh).reverse.dropWhile isSpaceCh).reverse with
    | nil => rfl
    | cons a t =>
      have hsplit : (s.dropWhile isSpaceCh).reverse.takeWhile isSpaceCh ++
          (s.dropWhile isSpaceCh).reverse.dropWhile isSpaceCh =
          (s.dropWhile isSpaceCh).reverse :=
        List.takeWhile_append_dropWhile isSpaceCh (s.dropWhile isSpaceCh).reverse
      have hdecomp : s.dropWhile isSpaceCh =
          ((s.dropWhile isSpaceCh).reverse.dropWhile isSpaceCh).reverse ++
          ((s.dropWhile isSpaceCh).reverse.takeWhile isSpaceCh).reverse := by
        conv_lhs => rw [← List.reverse_reverse (s.dropWhile isSpaceCh), ← hsplit]
        rw [List.reverse_append]
      have hhead : (s.dropWhile isSpaceCh).head? = some a := by
        rw [hdecomp, hBr]
        rfl
      have hpa : isSpaceCh a = false := head_dropWhile hhead
      rw [List.dropWhile_cons, if_neg (by simp [hpa])]
  rw [h1, List.reverse_reverse, dropWhile_dropWhile]

/-- `normalize_name` already strips, so pre-stripping (as `require_non_empty`
does before every operation) changes nothing. -/
theorem normalize_name_pyStrip (s : Str) : normalize_name (pyStrip s) = normalize_name s := by
  unfold normalize_name
  rw [pyStrip_idem]

/-- Every character emitted by the whitespace collapse comes from the input or
is the substituted ASCII space. -/
theorem collapseAux_mem :
    ∀ (s : Str) (b : Bool) (c : Char), c ∈ collapseAux s b → c ∈ s ∨ c = ' ' := by
  intro s
  induction s with
  | nil => intro b c h; simp [collapseAux] at h
  | cons a t ih =>
    intro b c h
    unfold collapseAux at h
    by_cases hsp : isSpaceCh a
    · rw [if_pos hsp] at h
      cases b with
      | true =>
        rw [if_pos rfl] at h
        rcases ih true c h with hm | he
        · exact Or.inl (List.mem_cons_of_mem a hm)
        · exact Or.inr he
      | false =>
        rw [if_neg Bool.false_ne_true] at h
        rcases List.mem_cons.mp h with he | hm
        · exact Or.inr he
        · rcases ih true c hm with hm2 | he2
          · exact Or.inl (List.mem_cons_of_mem a hm2)
          · exact Or.inr he2
    · rw [if_neg hsp] at h
      rcases List.mem_cons.mp h with he | hm
      · exact Or.inl (he ▸ List.mem_cons_self a t)
      · rcases ih false c hm with hm2 | he2
        · exact Or.inl (List.mem_cons_of_mem a hm2)
        · exact Or.inr he2

/-- Inside a whitespace run, the next character the collapse emits is never
whitespace. -/
theorem collapseAux_head_true :
    ∀ (s : Str) {d : Char}, (collapseAux s true).head? = some d → isSpaceCh d = false := by
  intro s
  induction s with
  | nil => intro d h; simp [collapseAux] at h
  | cons a t ih =>
    intro d h
    unfold collapseAux at h
    by_cases hsp : isSpaceCh a
    · rw [if_pos hsp, if_pos rfl] at h
      exact ih h
    · rw [if_neg hsp] at h
      simp only [List.head?_cons, Option.some.injEq] at h
      subst h
      exact Bool.eq_false_iff.mpr hsp

/-- The whitespace collapse never leaves two adjacent whitespace characters. -/
theorem collapseAux_chain : ∀ (s : Str) (b : Bool), (collapseAux s b).Chain' noSp2 := by
  intro s
  induction s with
  | nil => intro b; simp [collapseAux]
  | cons a t ih =>
    intro b
    unfold collapseAux
    by_cases hsp : isSpaceCh a
    · rw [if_pos hsp]
      cases b with
      | true =>
        rw [if_pos rfl]
        exact ih true
      | false =>
        rw [if_neg Bool.false_ne_true]
        rw [List.chain'_cons']
        refine ⟨?_, ih true⟩
        intro y hy
        have hyf : isSpaceCh y = false := collapseAux_head_true t hy
        exact fun hc => by rw [hyf] at hc; exact Bool.false_ne_true hc.2
    · rw [if_neg hsp]
      rw [List.chain'_cons']
      refine ⟨?_, ih false⟩
      intro y _
      exact fun hc => hsp hc.1

/-- When the next character is not whitespace, the run flag is irrelevant. -/
theorem collapseAux_true_eq_false (s : Str)
    (hhead : ∀ d, s.head? = some d → isSpaceCh d = false) :
    collapseAux s true = collapseAux s false := by
  cases s with
  | nil => rfl
  | cons a t =>
    have ha : isSpaceCh a = false := hhead a rfl
    unfold collapseAux
    rw [if_neg (by simp [ha]), if_neg (by simp [ha])]

/-- Strings whose only whitespace is single ASCII spaces are fixed by the
whitespace collapse. -/
theorem collapse_fixed :
    ∀ (z : Str), (∀ c ∈ z, isSpaceCh c = true → c = ' ') → z.Chain' noSp2 →
      collapseAux z false = z := by
  intro z
  induction z with
  | nil => intro _ _; rfl
  | cons a t ih =>
    intro hall hch
    unfold collapseAux
    by_cases hsp : isSpaceCh a
    · rw [if_pos hsp]
      have ha : a = ' ' := hall a (List.mem_cons_self a t) hsp
      have hhead : ∀ d, t.head? = some d → isSpaceCh d = false := by
        intro d hd
        have hrel := (List.chain'_cons'.mp hch).1 d (by rw [hd]; rfl)
        by_contra hdt
        exact hrel ⟨hsp, Bool.not_eq_false _ |>.mp hdt⟩
      rw [if_neg Bool.false_ne_true, collapseAux_true_eq_false t hhead,
        ih (fun c hc => hall c (List.mem_cons_of_mem a hc)) (List.chain'_cons'.mp hch).2, ha]
    · rw [if_neg hsp,
        ih (fun c hc => hall c (List.mem_cons_of_mem a hc)) (List.chain'_cons'.mp hch).2]

/-- `dropWhile` preserves the no-adjacent-whitespace shape. -/
theorem chain_dropWhile (p : Char → Bool) {l : Str} (h : l.Chain' noSp2) :
    (l.dropWhile p).Chain' noSp2 := by
  induction l with
  | nil => simp
  | cons a t ih =>
    rw [List.dropWhile_cons]
    by_cases hpa : p a
    · rw [if_pos hpa]; exact ih h.tail
    · rw [if_neg hpa]; exact h

/-- `reverse` preserves the no-adjacent-whitespace shape (the relation is
symmetric). -/
theorem chain_reverse {l : Str} (h : l.Chain' noSp2) : l.reverse.Chain' noSp2 := by
  rw [List.chain'_reverse]
  exact h.imp (fun a b hab => fun hc => hab ⟨hc.2, hc.1⟩)

/-- `str.strip()` preserves the no-adjacent-whitespace shape. -/
theorem chain_pyStrip {l : Str} (h : l.Chain' noSp2) : (pyStrip l).Chain' noSp2 := by
  unfold pyStrip
  exact chain_reverse (chain_dropWhile _ (chain_reverse (chain_dropWhile _ h)))

/-- Characters of a stripped string are characters of the string. -/
theorem mem_pyStrip {c : Char} {l : Str} (h : c ∈ pyStrip l) : c ∈ l := by
  unfold pyStrip at h
  rw [List.mem_reverse] at h
  have h2 : c ∈ (l.dropWhile isSpaceCh).reverse := (List.dropWhile_sublist _).subset h
  rw [List.mem_reverse] at h2
  exact (List.dropWhile_sublist _).subset h2

/-- A map that is the identity on every member is the identity. -/
theorem map_id_of_mem {f : Char → Char} :
    ∀ {l : Str}, (∀ a ∈ l, f a = a) → l.map f = l := by
  intro l h
  induction l with
  | nil => rfl
  | cons a t ih =>
    simp only [List.map_cons, h a (List.mem_cons_self a t),
      ih (fun x hx => h x (List.mem_cons_of_mem a hx))]

/-- Every character of a normalized name is in the `[a-z0-9 ]` class. -/
theorem normalize_name_allowed (x : Str) : ∀ c ∈ normalize_name x, isAllowed c = true := by
  intro c hc
  unfold normalize_name collapseWs at hc
  rcases collapseAux_mem _ _ _ hc with hmem | hsp
  · exact List.of_mem_filter hmem
  · subst hsp; decide

/-- A normalized name has no two adjacent whitespace characters. -/
theorem normalize_name_chain (x : Str) : (normalize_name x).Chain' noSp2 := by
  unfold normalize_name collapseWs
  exact collapseAux_chain _ _

/-- `normalize_name` acts as a plain strip on strings that are already in its
image shape: all characters in `[a-z0-9 ]` and no adjacent spaces. -/
theorem normalize_name_of_canonical (y : Str) (hall : ∀ c ∈ y, isAllowed c = true)
    (hch : y.Chain' noSp2) : normalize_name y = pyStrip y := by
  unfold normalize_name collapseWs
  have hallS : ∀ c ∈ pyStrip y, isAllowed c = true := fun c hc => hall c (mem_pyStrip hc)
  rw [map_id_of_mem (fun a ha => isAllowed_pyLowerChar (hallS a ha))]
  rw [map_id_of_mem (fun a ha => isAllowed_mapAccent (hallS a ha))]
  rw [List.filter_eq_self.mpr (fun a ha => hallS a ha)]
  exact collapse_fixed _ (fun c hc hs => isAllowed_isSpaceCh (hallS c hc) hs) (chain_pyStrip hch)

/-- Claim C3 counterexample: `normalize_name` is not idempotent. On the input
`"a ."` the punctuation filter leaves a trailing space (`"a "`), which the
whitespace collapse does not trim, while a second application strips it. -/
theorem normalize_name_not_idempotent_cex :
    ¬ normalize_name (normalize_name ['a', ' ', '.']) = normalize_name ['a', ' ', '.'] := by
  decide

/-- Claim C3 (amended): applying `normalize_name` twice is the same as applying
it once and then stripping surrounding whitespace; in particular the normalizer
is idempotent exactly on the inputs whose normalized form carries no surrounding
space (punctuation adjacent to an end of the input can leave one). -/
theorem normalize_name_normalize_name (x : Str) :
    normalize_name (normalize_name x) = pyStrip (normalize_name x) :=
  normalize_name_of_canonical (normalize_name x) (normalize_name_allowed x)
    (normalize_name_chain x)

/-- Unfolding equation: lookup in the empty association list. -/
theorem alGet_nil {α : Type} (q : Str) : alGet ([] : List (Str × α)) q = none := rfl

/-- Unfolding equation: lookup in a non-empty association list. -/
theorem alGet_cons {α : Type} (a : Str) (v : α) (t : List (Str × α)) (q : Str) :
    alGet ((a, v) :: t) q = if a = q then some v else alGet t q := rfl

/-- Unfolding equation: deletion from a non-empty association list. -/
theorem alErase_cons {α : Type} (a : Str) (v : α) (t : List (Str × α)) (q : Str) :
    alErase ((a, v) :: t) q = if a = q then alErase t q else (a, v) :: alErase t q := rfl

/-- Lookup after deleting a key misses. -/
theorem alGet_erase_self {α : Type} (l : List (Str × α)) (k : Str) :
    alGet (alErase l k) k = none := by
  induction l with
  | nil => rfl
  | cons p t ih =>
    obtain ⟨a, v⟩ := p
    rw [alErase_cons]
    by_cases hak : a = k
    · rw [if_pos hak]
      exact ih
    · rw [if_neg hak, alGet_cons, if_neg hak]
      exact ih

/-- Deleting one key leaves every other lookup unchanged. -/
theorem alGet_erase_ne {α : Type} (l : List (Str × α)) {k q : Str} (h : q ≠ k) :
    alGet (alErase l k) q = alGet l q := by
  induction l with
  | nil => rfl
  | cons p t ih =>
    obtain ⟨a, v⟩ := p
    rw [alErase_cons]
    by_cases hak : a = k
    · rw [if_pos hak, ih, alGet_cons, if_neg (fun haq : a = q => h (haq ▸ hak ▸ rfl))]
    · rw [if_neg hak, alGet_cons, alGet_cons, ih]

/-- Lookup of a freshly bound key. -/
theorem alGet_set_self {α : Type} (l : List (Str × α)) (k : Str) (v : α) :
    alGet (alSet l k v) k = some v := by
  unfold alSet
  induction l with
  | nil =>
    show alGet [(k, v)] k = some v
    rw [alGet_cons, if_pos rfl]
  | cons p t ih =>
    obtain ⟨a, w⟩ := p
    rw [alErase_cons]
    by_cases hak : a = k
    · rw [if_pos hak]
      exact ih
    · rw [if_neg hak, List.cons_append, alGet_cons, if_neg hak]
      exact ih

/-- Binding one key leaves every other lookup unchanged. -/
theorem alGet_set_ne {α : Type} (l : List (Str × α)) (k : Str) (v : α) {q : Str} (h : q ≠ k) :
    alGet (alSet l k v) q = alGet l q := by
  unfold alSet
  induction l with
  | nil =>
    show alGet [(k, v)] q = alGet ([] : List (Str × α)) q
    rw [alGet_cons, if_neg (fun hkq : k = q => h (hkq ▸ rfl))]
  | cons p t ih =>
    obtain ⟨a, w⟩ := p
    rw [alErase_cons]
    by_cases hak : a = k
    · rw [if_pos hak, ih, alGet_cons, if_neg (fun haq : a = q => h (haq ▸ hak ▸ rfl))]
    · rw [if_neg hak, List.cons_append, alGet_cons, alGet_cons, ih]

/-- A lookup that survives a deletion was already present. -/
theorem alGet_erase_subset {α : Type} (l : List (Str × α)) (k q : Str) {c : α}
    (h : alGet (alErase l k) q = some c) : alGet l q = some c := by
  by_cases hq : q = k
  · rw [hq, alGet_erase_self] at h
    cases h
  · rwa [alGet_erase_ne _ hq] at h

/-- `require_non_empty` on an input that strips to something non-empty. -/
theorem require_non_empty_eq {s : Str} (h : pyStrip s ≠ []) :
    require_non_empty s = some (pyStrip s) := by
  unfold require_non_empty
  rw [if_neg h]

/-- `find_client_file` only looks at the normalized name, so pre-stripping the
name (as every operation does through `require_non_empty`) changes nothing. -/
theorem find_client_file_pyStrip (index : Index) (fs : FS) (n : Str) :
    find_client_file index fs (pyStrip n) = find_client_file index fs n := by
  unfold find_client_file
  rw [normalize_name_pyStrip]

/-- Inversion of a successful `find_client_file`: the index maps the normalized
name to the (non-falsy) filename and the record file exists. -/
theorem find_client_file_some {index : Index} {fs : FS} {n f : Str}
    (h : find_client_file index fs n = some f) :
    alGet index (normalize_name n) = some f ∧ f ≠ [] ∧ ∃ c, alGet fs.clients f = some c := by
  unfold find_client_file at h
  split at h
  · cases h
  · next g hidx =>
    split at h
    · cases h
    · next hg =>
      split at h
      · next hsome =>
        cases h
        exact ⟨hidx, hg, Option.isSome_iff_exists.mp hsome⟩
      · cases h

/-- Introduction for a successful `find_client_file`. -/
theorem find_client_file_intro {index : Index} {fs : FS} {n f : Str} {c : Cliente}
    (hidx : alGet index (normalize_name n) = some f) (hf : f ≠ [])
    (hc : alGet fs.clients f = some c) :
    find_client_file index fs n = some f := by
  unfold find_client_file
  rw [hidx]
  show (if f = [] then none else if (alGet fs.clients f).isSome then some f else none) = some f
  rw [if_neg hf, hc]
  rfl

/-- Claim C1: if some name already in the index has the same normalized key as
the submitted name, `create_client` fails with `Conflict` before any write: the
in-memory index, the persisted index file, the existing record, and the record
store are returned exactly as they were. -/
theorem create_client_conflict (index : Index) (fs : FS)
    (name1 name2 tipoI contactoI servicioI descripcionI cid rid t1 t2 f : Str)
    (hname : pyStrip name2 ≠ [])
    (hkey : normalize_name name1 = normalize_name name2)
    (hex : alGet index (normalize_name name1) = some f) :
    create_client index fs name2 tipoI contactoI servicioI descripcionI cid rid t1 t2 =
      (Except.error AppError.Conflict, index, fs) := by
  simp only [create_client, require_non_empty_eq hname, normalize_name_pyStrip]
  rw [← hkey, hex]
  rfl

/-- Witness for C1 at a concrete state: `" ANA "` collides with the stored key
of `"Ana"` and creation is refused with everything unchanged. -/
theorem create_client_conflict_witness :
    pyStrip [' ', 'A', 'N', 'A', ' '] ≠ [] ∧
    normalize_name ['A', 'n', 'a'] = normalize_name [' ', 'A', 'N', 'A', ' '] ∧
    alGet wIndex (normalize_name ['A', 'n', 'a']) = some wFile ∧
    create_client wIndex wFS [' ', 'A', 'N', 'A', ' '] [] [] [] [] [] [] [] [] =
      (Except.error AppError.Conflict, wIndex, wFS) :=
  ⟨by decide, by decide, by decide,
    create_client_conflict wIndex wFS ['A', 'n', 'a'] [' ', 'A', 'N', 'A', ' ']
      [] [] [] [] [] [] [] [] wFile (by decide) (by decide) (by decide)⟩

/-- The confirmed-delete path: the record file is removed and the index entry
deleted and persisted. -/
theorem delete_client_success {index : Index} {fs : FS} {nameI confirmI f : Str}
    (hname : pyStrip nameI ≠ [])
    (hfind : find_client_file index fs nameI = some f)
    (hconfirm : (pyStrip confirmI).map pyLowerChar = ['s', 'i']) :
    delete_client index fs nameI confirmI =
      (Except.ok (), alErase index (normalize_name nameI),
        { fs with clients := alErase fs.clients f,
                  indexFile := some (alErase index (normalize_name nameI)) }) := by
  obtain ⟨hidx, hfne, c, hc⟩ := find_client_file_some hfind
  simp [delete_client, require_non_empty_eq hname, find_client_file_pyStrip, hfind,
    hconfirm, normalize_name_pyStrip, os_remove, hc, hidx, save_index]

/-- Claim C2: after a confirmed delete, any name with the same normalized key no
longer resolves, and a direct record-store lookup of the former storage
identifier also misses: both the record file and the index entry are gone. -/
theorem delete_client_removes (index : Index) (fs : FS) (nameI confirmI f : Str)
    (hname : pyStrip nameI ≠ [])
    (hfind : find_client_file index fs nameI = some f)
    (hconfirm : (pyStrip confirmI).map pyLowerChar = ['s', 'i']) :
    (∀ name2 : Str, normalize_name name2 = normalize_name nameI →
      find_client_file (delete_client index fs nameI confirmI).2.1
        (delete_client index fs nameI confirmI).2.2 name2 = none) ∧
    alGet (delete_client index fs nameI confirmI).2.2.clients f = none := by
  rw [delete_client_success hname hfind hconfirm]
  constructor
  · intro name2 hkey
    simp only [find_client_file]
    rw [hkey, alGet_erase_self]
  · exact alGet_erase_self fs.clients f

/-- Witness for C2 at a concrete state: deleting `"Ana"` with answer `"si"`
makes both `" ANA "` and the old filename unresolvable. -/
theorem delete_client_removes_witness :
    pyStrip ['A', 'n', 'a'] ≠ [] ∧
    find_client_file wIndex wFS ['A', 'n', 'a'] = some wFile ∧
    (pyStrip ['s', 'i']).map pyLowerChar = ['s', 'i'] ∧
    ((∀ name2 : Str, normalize_name name2 = normalize_name ['A', 'n', 'a'] →
      find_client_file (delete_client wIndex wFS ['A', 'n', 'a'] ['s', 'i']).2.1
        (delete_client wIndex wFS ['A', 'n', 'a'] ['s', 'i']).2.2 name2 = none) ∧
    alGet (delete_client wIndex wFS ['A', 'n', 'a'] ['s', 'i']).2.2.clients wFile = none) :=
  ⟨by decide, by decide, by decide,
    delete_client_removes wIndex wFS ['A', 'n', 'a'] ['s', 'i'] wFile
      (by decide) (by decide) (by decide)⟩

/-- Claim C6: a delete whose confirmation answer is not affirmative returns
`Cancelled` and performs no mutation at all: the record store, the in-memory
index, and the persisted index file are returned exactly as they were. -/
theorem delete_client_cancelled (index : Index) (fs : FS) (nameI confirmI f : Str)
    (hname : pyStrip nameI ≠ [])
    (hfind : find_client_file index fs nameI = some f)
    (hconfirm : (pyStrip confirmI).map pyLowerChar ≠ ['s', 'i']) :
    delete_client index fs nameI confirmI = (Except.error AppError.Cancelled, index, fs) := by
  simp only [delete_client, require_non_empty_eq hname, find_client_file_pyStrip, hfind]
  rw [if_pos hconfirm]

/-- Witness for C6 at a concrete state: answering `"no"` cancels and the state
is untouched. -/
theorem delete_client_cancelled_witness :
    pyStrip ['A', 'n', 'a'] ≠ [] ∧
    find_client_file wIndex wFS ['A', 'n', 'a'] = some wFile ∧
    (pyStrip ['n', 'o']).map pyLowerChar ≠ ['s', 'i'] ∧
    delete_client wIndex wFS ['A', 'n', 'a'] ['n', 'o'] =
      (Except.error AppError.Cancelled, wIndex, wFS) :=
  ⟨by decide, by decide, by decide,
    delete_client_cancelled wIndex wFS ['A', 'n', 'a'] ['n', 'o'] wFile
      (by decide) (by decide) (by decide)⟩

/-- Claim C9: for an existing customer, the delete proceeds (returns ok and the
record file is gone) if and only if the confirmation answer, stripped and
lowercased, is exactly `"si"`; any other answer — `"sí"`, `"yes"`, `"s"`, … —
yields `Cancelled` with no mutation. -/
theorem delete_client_confirmation (index : Index) (fs : FS) (nameI confirmI f : Str)
    (hname : pyStrip nameI ≠ [])
    (hfind : find_client_file index fs nameI = some f) :
    (((delete_client index fs nameI confirmI).1 = Except.ok () ∧
        alGet (delete_client index fs nameI confirmI).2.2.clients f = none) ↔
      (pyStrip confirmI).map pyLowerChar = ['s', 'i']) ∧
    ((pyStrip confirmI).map pyLowerChar ≠ ['s', 'i'] →
      delete_client index fs nameI confirmI = (Except.error AppError.Cancelled, index, fs)) := by
  by_cases hc : (pyStrip confirmI).map pyLowerChar = ['s', 'i']
  · refine ⟨?_, fun hne => absurd hc hne⟩
    rw [delete_client_success hname hfind hc]
    exact ⟨fun _ => hc, fun _ => ⟨rfl, alGet_erase_self fs.clients f⟩⟩
  · refine ⟨?_, fun _ => delete_client_cancelled index fs nameI confirmI f hname hfind hc⟩
    rw [delete_client_cancelled index fs nameI confirmI f hname hfind hc]
    constructor
    · intro hcontra
      cases hcontra.1
    · intro hsi
      exact absurd hsi hc

/-- Witness for C9 at a concrete state: answer `" SÍ "` (accented) strips and
lowercases to `"sí"`, not `"si"`, so the delete is cancelled. -/
theorem delete_client_confirmation_witness :
    pyStrip ['A', 'n', 'a'] ≠ [] ∧
    find_client_file wIndex wFS ['A', 'n', 'a'] = some wFile ∧
    ((((delete_client wIndex wFS ['A', 'n', 'a'] [' ', 'S', 'Í', ' ']).1 = Except.ok () ∧
        alGet (delete_client wIndex wFS ['A', 'n', 'a'] [' ', 'S', 'Í', ' ']).2.2.clients
          wFile = none) ↔
      (pyStrip [' ', 'S', 'Í', ' ']).map pyLowerChar = ['s', 'i']) ∧
    ((pyStrip [' ', 'S', 'Í', ' ']).map pyLowerChar ≠ ['s', 'i'] →
      delete_client wIndex wFS ['A', 'n', 'a'] [' ', 'S', 'Í', ' '] =
        (Except.error AppError.Cancelled, wIndex, wFS))) :=
  ⟨by decide, by decide,
    delete_client_confirmation wIndex wFS ['A', 'n', 'a'] [' ', 'S', 'Í', ' '] wFile
      (by decide) (by decide)⟩

/-- Claim C7 counterexample: the record-store delete the program actually uses
is `os.remove`, which raises `FileNotFoundError` on an absent path rather than
being a no-op. -/
theorem os_remove_absent_raises :
    os_remove ([] : List (Str × Cliente)) ['g', 'h', 'o', 's', 't'] =
      Except.error AppError.FileNotFoundError := rfl

/-- Claim C7 (amended): `os.remove` removes the file when it exists, but raises
`FileNotFoundError` — it is not a no-op — when the file is absent;
`delete_client` only invokes it behind the existence check of
`find_client_file`, so the program's delete flow never surfaces that error. -/
theorem os_remove_guarded :
    (∀ (clients : List (Str × Cliente)) (f : Str) (c : Cliente),
        alGet clients f = some c → os_remove clients f = Except.ok (alErase clients f)) ∧
    (∀ (clients : List (Str × Cliente)) (f : Str),
        alGet clients f = none →
          os_remove clients f = Except.error AppError.FileNotFoundError) ∧
    (∀ (index : Index) (fs : FS) (nameI confirmI : Str),
        (delete_client index fs nameI confirmI).1 ≠ Except.error AppError.FileNotFoundError) := by
  refine ⟨?_, ?_, ?_⟩
  · intro clients f c hc
    simp [os_remove, hc]
  · intro clients f hc
    simp [os_remove, hc]
  · intro index fs nameI confirmI
    cases hreq : require_non_empty nameI with
    | none => simp [delete_client, hreq]
    | some name =>
      cases hfind : find_client_file index fs name with
      | none => simp [delete_client, hreq, hfind]
      | some path =>
        by_cases hcf : (pyStrip confirmI).map pyLowerChar = ['s', 'i']
        · obtain ⟨hidx, hfne, c, hc⟩ := find_client_file_some hfind
          by_cases hkey : (alGet index (normalize_name name)).isSome
          · simp [delete_client, hreq, hfind, hcf, os_remove, hc, hkey]
          · simp [delete_client, hreq, hfind, hcf, os_remove, hc, hkey]
        · simp [delete_client, hreq, hfind, hcf]

/-- Witness for C7 amended, at concrete states: removing the present record
succeeds; removing from an empty store errors; a concrete delete run never
reports `FileNotFoundError`. -/
theorem os_remove_guarded_witness :
    os_remove wFS.clients wFile = Except.ok (alErase wFS.clients wFile) ∧
    os_remove ([] : List (Str × Cliente)) wFile = Except.error AppError.FileNotFoundError ∧
    (delete_client wIndex wFS ['A', 'n', 'a'] ['n', 'o']).1 ≠
      Except.error AppError.FileNotFoundError :=
  ⟨os_remove_guarded.1 wFS.clients wFile wCliente (by decide),
    os_remove_guarded.2.1 [] wFile (by decide),
    os_remove_guarded.2.2 wIndex wFS ['A', 'n', 'a'] ['n', 'o']⟩

/-- Unfolding equation: stripping the selector strings used by `modify_client`. -/
theorem pyStrip_opt_one : pyStrip ['1'] = ['1'] := rfl

/-- Unfolding equation: stripping the append selector. -/
theorem pyStrip_opt_two : pyStrip ['2'] = ['2'] := rfl

/-- Claim C5: when the normalized key is absent from the index, or present but
the record file at the mapped storage identifier is missing (a stale entry),
resolution returns `NotFound` as an ordinary value — no crash — and consult,
modify and delete all answer `NotFound` without mutating anything. -/
theorem stale_entry_not_found (index : Index) (fs : FS)
    (nameI optI nuevoI servicioI descI rid ts confirmI ts2 : Str)
    (hname : pyStrip nameI ≠ [])
    (hstale : ∀ f, alGet index (normalize_name nameI) = some f → alGet fs.clients f = none) :
    find_client_file index fs nameI = none ∧
    consult_client index fs nameI ts2 = (Except.error AppError.NotFound, fs) ∧
    modify_client index fs nameI optI nuevoI servicioI descI rid ts =
      (Except.error AppError.NotFound, fs) ∧
    delete_client index fs nameI confirmI = (Except.error AppError.NotFound, index, fs) := by
  have hfind : find_client_file index fs nameI = none := by
    unfold find_client_file
    cases hidx : alGet index (normalize_name nameI) with
    | none => rfl
    | some g =>
      show (if g = [] then none
        else if (alGet fs.clients g).isSome then some g else none) = none
      rw [hstale g hidx]
      by_cases hg : g = []
      · rw [if_pos hg]
      · rw [if_neg hg]
        rfl
  refine ⟨hfind, ?_, ?_, ?_⟩
  · simp [consult_client, require_non_empty_eq hname, find_client_file_pyStrip, hfind]
  · simp [modify_client, require_non_empty_eq hname, find_client_file_pyStrip, hfind]
  · simp [delete_client, require_non_empty_eq hname, find_client_file_pyStrip, hfind]

/-- Witness for C5 at a concrete state: the index maps `"ana"` to a filename
but the record store is empty, and every operation answers `NotFound` with no
mutation. -/
theorem stale_entry_not_found_witness :
    pyStrip ['A', 'n', 'a'] ≠ [] ∧
    (∀ f, alGet wIndex (normalize_name ['A', 'n', 'a']) = some f →
      alGet wEmptyFS.clients f = none) ∧
    (find_client_file wIndex wEmptyFS ['A', 'n', 'a'] = none ∧
    consult_client wIndex wEmptyFS ['A', 'n', 'a'] [] = (Except.error AppError.NotFound, wEmptyFS) ∧
    modify_client wIndex wEmptyFS ['A', 'n', 'a'] [] [] [] [] [] [] =
      (Except.error AppError.NotFound, wEmptyFS) ∧
    delete_client wIndex wEmptyFS ['A', 'n', 'a'] [] =
      (Except.error AppError.NotFound, wIndex, wEmptyFS)) :=
  ⟨by decide, fun f _ => rfl,
    stale_entry_not_found wIndex wEmptyFS ['A', 'n', 'a'] [] [] [] [] [] [] [] []
      (by decide) (fun f _ => rfl)⟩

/-- Claim C10: a successful contact modification rewrites the record at its
unchanged storage identifier with only the `contacto` field replaced —
`customer_id`, `nombre`, `tipo_cliente`, `fecha_alta` and the whole
`solicitudes` sequence are those of the old record — and every other file, the
persisted index, and the log are untouched. -/
theorem modify_client_contact_frame (index : Index) (fs : FS)
    (nameI nuevoI servicioI descI rid ts f : Str) (c : Cliente)
    (hname : pyStrip nameI ≠ [])
    (hfind : find_client_file index fs nameI = some f)
    (hc : alGet fs.clients f = some c)
    (hnew : pyStrip nuevoI ≠ []) :
    modify_client index fs nameI ['1'] nuevoI servicioI descI rid ts =
      (Except.ok (),
        { fs with clients := alSet fs.clients f { c with contacto := pyStrip nuevoI } }) ∧
    (∀ g, g ≠ f →
      alGet (modify_client index fs nameI ['1'] nuevoI servicioI descI rid ts).2.clients g =
        alGet fs.clients g) := by
  have heq : modify_client index fs nameI ['1'] nuevoI servicioI descI rid ts =
      (Except.ok (),
        { fs with clients := alSet fs.clients f { c with contacto := pyStrip nuevoI } }) := by
    simp [modify_client, require_non_empty_eq hname, find_client_file_pyStrip, hfind, hc,
      pyStrip_opt_one, require_non_empty_eq hnew]
  refine ⟨heq, ?_⟩
  intro g hg
  rw [heq]
  exact alGet_set_ne fs.clients f _ hg

/-- Witness for C10 at a concrete state: replacing the contact of `"Ana"` with
`"555"` rewrites only that field of that record. -/
theorem modify_client_contact_frame_witness :
    pyStrip ['A', 'n', 'a'] ≠ [] ∧
    find_client_file wIndex wFS ['A', 'n', 'a'] = some wFile ∧
    alGet wFS.clients wFile = some wCliente ∧
    pyStrip ['5', '5', '5'] ≠ [] ∧
    (modify_client wIndex wFS ['A', 'n', 'a'] ['1'] ['5', '5', '5'] [] [] [] [] =
      (Except.ok (),
        { wFS with clients := (alSet wFS.clients wFile
            { wCliente with contacto := pyStrip ['5', '5', '5'] }) }) ∧
    (∀ g, g ≠ wFile →
      alGet (modify_client wIndex wFS ['A', 'n', 'a'] ['1'] ['5', '5', '5']
        [] [] [] []).2.clients g = alGet wFS.clients g)) :=
  ⟨by decide, by decide, by decide, by decide,
    modify_client_contact_frame wIndex wFS ['A', 'n', 'a'] ['5', '5', '5'] [] [] [] [] wFile
      wCliente (by decide) (by decide) (by decide) (by decide)⟩

/-- The successful append path of `modify_client` (option `"2"`): the record is
rewritten at the same path with exactly one new service request at the end. -/
theorem modify_client_append {index : Index} {fs : FS} {nameI sI dI rid ts f : Str}
    {c : Cliente} (nuevoI : Str)
    (hname : pyStrip nameI ≠ [])
    (hidx : alGet index (normalize_name nameI) = some f)
    (hfne : f ≠ [])
    (hc : alGet fs.clients f = some c)
    (hs : pyStrip sI ≠ [])
    (hd : pyStrip dI ≠ []) :
    modify_client index fs nameI ['2'] nuevoI sI dI rid ts =
      (Except.ok (),
        { fs with clients := (alSet fs.clients f
            { c with solicitudes := c.solicitudes ++
                [{ request_id := rid
                   servicio := pyStrip sI
                   descripcion := pyStrip dI
                   fecha_solicitud := ts
                   canal := ['c','a','l','l',' ','c','e','n','t','e','r'] }] }) }) := by
  have hfind : find_client_file index fs nameI = some f := find_client_file_intro hidx hfne hc
  have h21 : (['2'] : Str) ≠ ['1'] := by decide
  simp [modify_client, require_non_empty_eq hname, find_client_file_pyStrip, hfind, hc,
    pyStrip_opt_two, h21, require_non_empty_eq hs, require_non_empty_eq hd]

/-- Claim C4: starting from an existing record, any number of successful
append-request modifications leaves the original `requests` entries unchanged
and in order, followed by the new entries in submission order. -/
theorem applyAppends_requests (index : Index) (nameI f : Str)
    (hname : pyStrip nameI ≠ [])
    (hidx : alGet index (normalize_name nameI) = some f)
    (hfne : f ≠ []) :
    ∀ (ents : List AppendReq) (fs : FS) (c : Cliente),
      alGet fs.clients f = some c →
      (∀ e ∈ ents, pyStrip e.servicioI ≠ [] ∧ pyStrip e.descripcionI ≠ []) →
      alGet (applyAppends index nameI fs ents).clients f =
        some { c with solicitudes := c.solicitudes ++ ents.map mkSolicitud } := by
  intro ents
  induction ents with
  | nil =>
    intro fs c hc _
    simpa [applyAppends] using hc
  | cons e rest ih =>
    intro fs c hc hents
    obtain ⟨hs, hd⟩ := hents e (List.mem_cons_self e rest)
    unfold applyAppends
    rw [modify_client_append [] hname hidx hfne hc hs hd]
    have hc1 : alGet (alSet fs.clients f
        { c with solicitudes := c.solicitudes ++ [mkSolicitud e] }) f =
        some { c with solicitudes := c.solicitudes ++ [mkSolicitud e] } :=
      alGet_set_self fs.clients f _
    rw [ih _ _ hc1 (fun e' he' => hents e' (List.mem_cons_of_mem e he'))]
    simp [mkSolicitud, List.append_assoc]

/-- Witness for C4 at a concrete state: two appended requests land behind the
seeded one, in order. -/
theorem applyAppends_requests_witness :
    pyStrip ['A', 'n', 'a'] ≠ [] ∧
    alGet wIndex (normalize_name ['A', 'n', 'a']) = some wFile ∧
    wFile ≠ [] ∧
    alGet wFS.clients wFile = some wCliente ∧
    (∀ e ∈ [AppendReq.mk ['T', 'V'] ['u', 'n', 'o'] ['r', '2'] [],
            AppendReq.mk ['T', 'V'] ['d', 'o', 's'] ['r', '3'] []],
      pyStrip e.servicioI ≠ [] ∧ pyStrip e.descripcionI ≠ []) ∧
    alGet (applyAppends wIndex ['A', 'n', 'a'] wFS
        [AppendReq.mk ['T', 'V'] ['u', 'n', 'o'] ['r', '2'] [],
         AppendReq.mk ['T', 'V'] ['d', 'o', 's'] ['r', '3'] []]).clients wFile =
      some { wCliente with solicitudes := wCliente.solicitudes ++
        ([AppendReq.mk ['T', 'V'] ['u', 'n', 'o'] ['r', '2'] [],
          AppendReq.mk ['T', 'V'] ['d', 'o', 's'] ['r', '3'] []]).map mkSolicitud } :=
  ⟨by decide, by decide, by decide, by decide, by decide,
    applyAppends_requests wIndex ['A', 'n', 'a'] wFile (by decide) (by decide) (by decide)
      [AppendReq.mk ['T', 'V'] ['u', 'n', 'o'] ['r', '2'] [],
       AppendReq.mk ['T', 'V'] ['d', 'o', 's'] ['r', '3'] []] wFS wCliente
      (by decide) (by decide)⟩

/-- Case analysis of a lookup after a binding: either the bound key (and value)
or an untouched previous binding. -/
theorem alGet_set_cases {α : Type} {l : List (Str × α)} {k q : Str} {v c : α}
    (h : alGet (alSet l k v) q = some c) :
    (q = k ∧ c = v) ∨ (q ≠ k ∧ alGet l q = some c) := by
  by_cases hq : q = k
  · left
    refine ⟨hq, ?_⟩
    rw [hq, alGet_set_self] at h
    exact (Option.some.injEq _ _ ▸ h).symm
  · right
    exact ⟨hq, by rwa [alGet_set_ne _ _ _ hq] at h⟩

/-- Shape of the record store after `create_client`: either untouched (any
failure path) or extended by one freshly built record holding exactly one
seeded service request. -/
theorem create_client_clients (index : Index) (fs : FS)
    (nameI tipoI contactoI servicioI descripcionI cid rid t1 t2 : Str) :
    (create_client index fs nameI tipoI contactoI servicioI descripcionI
        cid rid t1 t2).2.2.clients = fs.clients ∨
    ∃ filename cliente, cliente.solicitudes.length = 1 ∧
      (create_client index fs nameI tipoI contactoI servicioI descripcionI
        cid rid t1 t2).2.2.clients = alSet fs.clients filename cliente := by
  cases hreq : require_non_empty nameI with
  | none => left; simp [create_client, hreq]
  | some name =>
    by_cases hdup : (alGet index (normalize_name name)).isSome
    · left; simp [create_client, hreq, hdup]
    · cases hserv : require_non_empty servicioI with
      | none => left; simp [create_client, hreq, hdup, hserv]
      | some s =>
        cases hdesc : require_non_empty descripcionI with
        | none => left; simp [create_client, hreq, hdup, hserv, hdesc]
        | some d =>
          right
          refine ⟨cid ++ ('_' :: slugify name) ++ ['.','j','s','o','n'],
            { customer_id := cid
              nombre := name
              tipo_cliente := if pyStrip tipoI = [] then ['P','e','r','s','o','n','a']
                else pyStrip tipoI
              contacto := if pyStrip contactoI = [] then ['N','/','A'] else pyStrip contactoI
              fecha_alta := t1
              solicitudes := [{ request_id := rid
                                servicio := s
                                descripcion := d
                                fecha_solicitud := t2
                                canal := ['c','a','l','l',' ','c','e','n','t','e','r'] }] },
            rfl, ?_⟩
          simp [create_client, hreq, hdup, hserv, hdesc, save_index]

/-- Shape of the record store after `modify_client`: either untouched or one
existing record rewritten with the same or one-longer `solicitudes`. -/
theorem modify_client_clients (index : Index) (fs : FS)
    (nameI optI nuevoI servicioI descripcionI rid ts : Str) :
    (modify_client index fs nameI optI nuevoI servicioI descripcionI
        rid ts).2.clients = fs.clients ∨
    ∃ path c0 c1, alGet fs.clients path = some c0 ∧
      (c1.solicitudes = c0.solicitudes ∨ ∃ e, c1.solicitudes = c0.solicitudes ++ [e]) ∧
      (modify_client index fs nameI optI nuevoI servicioI descripcionI
        rid ts).2.clients = alSet fs.clients path c1 := by
  cases hreq : require_non_empty nameI with
  | none => left; simp [modify_client, hreq]
  | some name =>
    cases hfind : find_client_file index fs name with
    | none => left; simp [modify_client, hreq, hfind]
    | some path =>
      obtain ⟨hidx, hfne, c0, hc0⟩ := find_client_file_some hfind
      by_cases h1 : pyStrip optI = ['1']
      · cases hnew : require_non_empty nuevoI with
        | none => left; simp [modify_client, hreq, hfind, hc0, h1, hnew]
        | some nuevo =>
          right
          refine ⟨path, c0, { c0 with contacto := nuevo }, hc0, Or.inl rfl, ?_⟩
          simp [modify_client, hreq, hfind, hc0, h1, hnew]
      · by_cases h2 : pyStrip optI = ['2']
        · cases hserv : require_non_empty servicioI with
          | none => left; simp [modify_client, hreq, hfind, hc0, h1, h2, hserv]
          | some s =>
            cases hdesc : require_non_empty descripcionI with
            | none => left; simp [modify_client, hreq, hfind, hc0, h1, h2, hserv, hdesc]
            | some d =>
              right
              refine ⟨path, c0,
                { c0 with solicitudes := c0.solicitudes ++
                    [{ request_id := rid
                       servicio := s
                       descripcion := d
                       fecha_solicitud := ts
                       canal := ['c','a','l','l',' ','c','e','n','t','e','r'] }] },
                hc0, Or.inr ⟨_, rfl⟩, ?_⟩
              simp [modify_client, hreq, hfind, hc0, h1, h2, hserv, hdesc]
        · left; simp [modify_client, hreq, hfind, hc0, h1, h2]

/-- Shape of the record store after `delete_client`: either untouched or one
path erased. -/
theorem delete_client_clients (index : Index) (fs : FS) (nameI confirmI : Str) :
    (delete_client index fs nameI confirmI).2.2.clients = fs.clients ∨
    ∃ path, (delete_client index fs nameI confirmI).2.2.clients = alErase fs.clients path := by
  cases hreq : require_non_empty nameI with
  | none => left; simp [delete_client, hreq]
  | some name =>
    cases hfind : find_client_file index fs name with
    | none => left; simp [delete_client, hreq, hfind]
    | some path =>
      by_cases hcf : (pyStrip confirmI).map pyLowerChar = ['s', 'i']
      · obtain ⟨hidx, hfne, c, hc⟩ := find_client_file_some hfind
        right
        refine ⟨path, ?_⟩
        by_cases hkey : (alGet index (normalize_name name)).isSome
        · simp [delete_client, hreq, hfind, hcf, os_remove, hc, hkey, save_index]
        · simp [delete_client, hreq, hfind, hcf, os_remove, hc, hkey]
      · left; simp [delete_client, hreq, hfind, hcf]

/-- Claim C8: if every stored record has a non-empty `requests` sequence, the
invariant still holds after `create_client`, `modify_client` and
`delete_client` (no operation removes a request), and moreover any record that
`create_client` newly brings into the store carries exactly one seeded
request. -/
theorem requests_nonempty_invariant (index : Index) (fs : FS)
    (nameI tipoI contactoI servicioI descripcionI cid rid t1 t2 : Str)
    (nameM optI nuevoI sI dI rid2 ts : Str) (nameD confirmI : Str)
    (hinv : solicitudesNonEmpty fs) :
    solicitudesNonEmpty (create_client index fs nameI tipoI contactoI servicioI descripcionI
      cid rid t1 t2).2.2 ∧
    (∀ f c, alGet fs.clients f = none →
      alGet (create_client index fs nameI tipoI contactoI servicioI descripcionI
        cid rid t1 t2).2.2.clients f = some c →
      c.solicitudes.length = 1) ∧
    solicitudesNonEmpty (modify_client index fs nameM optI nuevoI sI dI rid2 ts).2 ∧
    solicitudesNonEmpty (delete_client index fs nameD confirmI).2.2 := by
  refine ⟨?_, ?_, ?_, ?_⟩
  · rcases create_client_clients index fs nameI tipoI contactoI servicioI descripcionI
        cid rid t1 t2 with h | ⟨fn, cl, hlen, h⟩
    · intro f c hc
      rw [h] at hc
      exact hinv f c hc
    · intro f c hc
      rw [h] at hc
      rcases alGet_set_cases hc with ⟨_, hcv⟩ | ⟨_, hget⟩
      · subst hcv
        intro hnil
        rw [hnil] at hlen
        cases hlen
      · exact hinv f c hget
  · intro f c hnone hsome
    rcases create_client_clients index fs nameI tipoI contactoI servicioI descripcionI
        cid rid t1 t2 with h | ⟨fn, cl, hlen, h⟩
    · rw [h, hnone] at hsome
      cases hsome
    · rw [h] at hsome
      rcases alGet_set_cases hsome with ⟨_, hcv⟩ | ⟨_, hget⟩
      · rw [hcv]
        exact hlen
      · rw [hnone] at hget
        cases hget
  · rcases modify_client_clients index fs nameM optI nuevoI sI dI rid2 ts
        with h | ⟨path, c0, c1, hc0, hsol, h⟩
    · intro f c hc
      rw [h] at hc
      exact hinv f c hc
    · intro f c hc
      rw [h] at hc
      rcases alGet_set_cases hc with ⟨_, hcv⟩ | ⟨_, hget⟩
      · subst hcv
        rcases hsol with hsame | ⟨e, happ⟩
        · rw [hsame]
          exact hinv path c0 hc0
        · rw [happ]
          simp
      · exact hinv f c hget
  · rcases delete_client_clients index fs nameD confirmI with h | ⟨path, h⟩
    · intro f c hc
      rw [h] at hc
      exact hinv f c hc
    · intro f c hc
      rw [h] at hc
      exact hinv f c (alGet_erase_subset fs.clients path f hc)

/-- Witness for C8 at a concrete state: starting from an empty store (where the
invariant holds vacuously), one full round of create/modify/delete keeps every
stored record's `requests` non-empty and the created record seeds one. -/
theorem requests_nonempty_invariant_witness :
    solicitudesNonEmpty (create_client [] wEmptyFS ['A', 'n', 'a'] [] [] ['T', 'V'] ['o', 'k']
      ['i', 'd'] ['r', '1'] [] []).2.2 ∧
    (∀ f c, alGet wEmptyFS.clients f = none →
      alGet (create_client [] wEmptyFS ['A', 'n', 'a'] [] [] ['T', 'V'] ['o', 'k']
        ['i', 'd'] ['r', '1'] [] []).2.2.clients f = some c →
      c.solicitudes.length = 1) ∧
    solicitudesNonEmpty (modify_client [] wEmptyFS ['A', 'n', 'a'] ['1'] ['5'] [] [] [] []).2 ∧
    solicitudesNonEmpty (delete_client [] wEmptyFS ['A', 'n', 'a'] ['s', 'i']).2.2 :=
  requests_nonempty_invariant [] wEmptyFS ['A', 'n', 'a'] [] [] ['T', 'V'] ['o', 'k']
    ['i', 'd'] ['r', '1'] [] [] ['A', 'n', 'a'] ['1'] ['5'] [] [] [] [] ['A', 'n', 'a']
    ['s', 'i'] (fun f c h => by cases h)
